import Mathlib

/-!
Shallow embedding of the composite teardown registry in src/src/Subscription.ts
(the Subscription class: unsubscribe, add, remove, the EMPTY sentinel and
UnsubscriptionError), together with proofs about its disposal state machine,
child-registration semantics and error aggregation.

Modelling conventions:
 - Subscription objects live in a heap: a store holds a list of nodes indexed
   by position (object identity = index).  Node 0 is reserved for the shared
   Subscription.EMPTY sentinel.
 - A node mirrors the fields of the class: the isUnsubscribed flag, the
   optional primary action _unsubscribe (an action id into an environment
   that says whether running that action succeeds or throws), and the
   optional child list _subscriptions (none models null/undefined).
 - Thrown JavaScript values are JsError: raw n is an arbitrary non-aggregate
   error, unsub l is an UnsubscriptionError carrying the list l of errors.
 - The store carries a log of every action id invoked, in invocation order,
   so that claims about which teardowns ran (and how often) are statable.
 - unsubscribe is defined with an explicit fuel (the number of still-active
   nodes suffices, because each recursive step flips one active node to
   disposed and already-disposed nodes return immediately, exactly like the
   isUnsubscribed early return in the source).
-/

inductive JsError where
  | raw : Nat → JsError
  | unsub : List JsError → JsError

structure Node where
  isUnsubscribed : Bool
  action : Option Nat
  subs : Option (List Nat)
deriving DecidableEq

structure Store where
  nodes : List Node
  log : List Nat
deriving DecidableEq

def emptyId : Nat := 0

def emptyNode : Node := ⟨true, none, none⟩

def getNode (s : Store) (i : Nat) : Option Node :=
  s.nodes.get? i

def setNode (s : Store) (i : Nat) (nd : Node) : Store :=
  { s with nodes := s.nodes.set i nd }

def activeP (nd : Node) : Bool :=
  !nd.isUnsubscribed

def activeCount (s : Store) : Nat :=
  s.nodes.countP activeP

/-- Folding the outcome of one child disposal into the accumulated state of
the loop: nothing on success, and on failure the hasErrors flag is set and an
UnsubscriptionError is spliced in flat (its list concatenated) while any
other error is pushed as a single entry. -/
def mergeChildErr (e : Option JsError) (acc : Bool × List JsError) :
    Bool × List JsError :=
  match e with
  | none => acc
  | some (.unsub l) => (true, l ++ acc.2)
  | some err => (true, err :: acc.2)

/-- The while loop over the detached _subscriptions array: dispose each child
in insertion order with the given one-child step, never stopping at a
failure.  Returns the final store, the hasErrors flag and the accumulated
error list. -/
def unsubKidsF (step : Nat → Store → Store × Option JsError) :
    List Nat → Store → Store × Bool × List JsError
  | [], s => (s, false, [])
  | j :: rest, s =>
    ((unsubKidsF step rest (step j s).1).1,
     mergeChildErr (step j s).2 (unsubKidsF step rest (step j s).1).2)

/-- Running the detached _unsubscribe action if it is a function: the action
id is appended to the invocation log, and a failure is recorded as the flag
plus the single raw entry pushed onto the error list. -/
def runPrimary (env : Nat → Option JsError) (oa : Option Nat) (s : Store) :
    Store × Bool × List JsError :=
  match oa with
  | none => (s, false, [])
  | some a =>
    match env a with
    | none => ({ s with log := s.log ++ [a] }, false, [])
    | some e => ({ s with log := s.log ++ [a] }, true, [e])

/-- The body of the first (not yet unsubscribed) call on a node whose fields
are nd: set the flag and null out the child list, run the primary action,
then attempt every child of the detached list in insertion order, and
finally throw the aggregate iff any step failed. -/
def unsubCore (env : Nat → Option JsError)
    (go : Nat → Store → Store × Option JsError) (i : Nat) (nd : Node) (s : Store) :
    Store × Option JsError :=
  let step := runPrimary env nd.action (setNode s i ⟨true, nd.action, none⟩)
  let rest := unsubKidsF go (nd.subs.getD []) step.1
  (rest.1,
    if step.2.1 || rest.2.1 then some (.unsub (step.2.2 ++ rest.2.2)) else none)

/-- One call of Subscription.prototype.unsubscribe on node i, with go used to
dispose each child: if the isUnsubscribed flag is set return at once,
otherwise run the disposal body. -/
def unsubStep (env : Nat → Option JsError)
    (go : Nat → Store → Store × Option JsError) (i : Nat) (s : Store) :
    Store × Option JsError :=
  match getNode s i with
  | none => (s, none)
  | some nd =>
    if nd.isUnsubscribed then (s, none)
    else unsubCore env go i nd s

/-- Fuel-indexed disposal: fuel bounds the recursion depth through children.
Each recursive level flips at least one active node to disposed and disposed
nodes return immediately, so any fuel at least the number of active nodes
gives the recursion of the source (proved below as a fuel-monotonicity
theorem). -/
def unsubFuel (env : Nat → Option JsError) : Nat → Nat → Store → Store × Option JsError
  | 0 => fun _ s => (s, none)
  | fuel + 1 => unsubStep env (unsubFuel env fuel)

def unsubscribe (env : Nat → Option JsError) (i : Nat) (s : Store) :
    Store × Option JsError :=
  unsubFuel env (activeCount s) i s

/-- The kinds of argument a caller can pass to add, mirroring the dynamic
checks in the source: tnull is any falsy value, tfunc a is a callable whose
behaviour is action id a, tsub j is a Subscription object (heap node j),
tobjNoUnsub is a truthy object without a callable unsubscribe member, and
tother is a truthy value that is neither an object nor a function. -/
inductive Teardown where
  | tnull : Teardown
  | tfunc : Nat → Teardown
  | tsub : Nat → Teardown
  | tobjNoUnsub : Teardown
  | tother : Teardown

/-- What a call to add does from the caller's point of view: return normally,
throw the Unrecognized-teardown usage Error, or propagate an error thrown by
an immediately executed disposal. -/
inductive AddOutcome where
  | ok : AddOutcome
  | usageError : AddOutcome
  | thrown : JsError → AddOutcome

def selfUnsub (s : Store) (self : Nat) : Bool :=
  match getNode s self with
  | some nd => nd.isUnsubscribed
  | none => false

def outcomeOfErr : Option JsError → AddOutcome
  | none => .ok
  | some e => .thrown e

/-- The push onto the lazily allocated _subscriptions array. -/
def pushChild (s : Store) (self : Nat) (j : Nat) : Store :=
  match getNode s self with
  | none => s
  | some nd => setNode s self ⟨nd.isUnsubscribed, nd.action, some (nd.subs.getD [] ++ [j])⟩

/-- Subscription.prototype.add.  Guards in source order: a falsy argument,
this itself, or Subscription.EMPTY returns at once.  A function allocates a
fresh wrapper Subscription around it and then falls through to the object
case.  An object that is already unsubscribed, or that has no callable
unsubscribe, is silently dropped; otherwise, if this is already
unsubscribed the candidate is disposed immediately (any error propagating
straight to the caller), else the candidate is appended to the child list.
A truthy non-object non-function throws the usage Error. -/
def add (env : Nat → Option JsError) (self : Nat) (td : Teardown) (s : Store) :
    Store × AddOutcome :=
  match td with
  | .tnull => (s, .ok)
  | .tother => (s, .usageError)
  | .tobjNoUnsub => (s, .ok)
  | .tsub j =>
    if j = self then (s, .ok)
    else if j = emptyId then (s, .ok)
    else
      match getNode s j with
      | none => (s, .ok)
      | some jnd =>
        if jnd.isUnsubscribed then (s, .ok)
        else if selfUnsub s self then
          let r := unsubscribe env j s
          (r.1, outcomeOfErr r.2)
        else (pushChild s self j, .ok)
  | .tfunc a =>
    let w := s.nodes.length
    let s1 : Store := { s with nodes := s.nodes ++ [⟨false, some a, none⟩] }
    if selfUnsub s self then
      let r := unsubscribe env w s1
      (r.1, outcomeOfErr r.2)
    else (pushChild s1 self w, .ok)

/-- Subscription.prototype.remove.  Takes none for a null argument.  A null
argument, this itself, or Subscription.EMPTY is a no-op; otherwise, when the
child list exists and contains the argument, the first entry identical to it
is spliced out; nothing is ever disposed. -/
def remove (self : Nat) (oj : Option Nat) (s : Store) : Store :=
  match oj with
  | none => s
  | some j =>
    if j = self then s
    else if j = emptyId then s
    else
      match getNode s self with
      | none => s
      | some nd =>
        match nd.subs with
        | none => s
        | some l =>
          if j ∈ l then setNode s self ⟨nd.isUnsubscribed, nd.action, some (l.erase j)⟩
          else s

/-- The current child list of a node (empty when the node is missing or its
collection is absent). -/
def childrenOf (s : Store) (self : Nat) : List Nat :=
  match getNode s self with
  | some nd => nd.subs.getD []
  | none => []

/-- Node k owns action a: its primary action is exactly a. -/
def ownsA (s : Store) (k : Nat) (a : Nat) : Bool :=
  match getNode s k with
  | some nd => nd.action == some a
  | none => false

/-- Action a is owned by no node other than j (a bounded, decidable
formulation: out-of-range indices hold no node). -/
def OnlyOwner (j a : Nat) (s : Store) : Prop :=
  ∀ k, k < s.nodes.length → ownsA s k a = true → k = j

instance (j a : Nat) (s : Store) : Decidable (OnlyOwner j a s) :=
  Nat.decidableBallLT s.nodes.length (fun k _ => ownsA s k a = true → k = j)

theorem unsubFuel_zero (env : Nat → Option JsError) (i : Nat) (s : Store) :
    unsubFuel env 0 i s = (s, none) := rfl

theorem unsubFuel_succ_eq (env : Nat → Option JsError) (fuel i : Nat) (s : Store) :
    unsubFuel env (fuel + 1) i s = unsubStep env (unsubFuel env fuel) i s := rfl

theorem get?_some_lt {α : Type} {l : List α} {n : Nat} {a : α}
    (h : l.get? n = some a) : n < l.length := by
  by_contra hc
  rw [List.get?_eq_none.mpr (Nat.le_of_not_lt hc)] at h
  exact Option.noConfusion h

/-- How a single node can change across one disposal cascade: it is either
untouched, or it was active and is now flagged disposed with its child list
nulled out and its primary action kept in place. -/
def Node.evolves (nd nd' : Node) : Prop :=
  nd' = nd ∨ (nd.isUnsubscribed = false ∧ nd' = ⟨true, nd.action, none⟩)

/-- How a store can change across one disposal cascade: no allocation, and
every node evolves pointwise. -/
def Store.evolves (s s' : Store) : Prop :=
  s'.nodes.length = s.nodes.length ∧
  ∀ j nd, s.nodes.get? j = some nd → ∃ nd', s'.nodes.get? j = some nd' ∧ nd.evolves nd'

theorem Store.evolves_refl (s : Store) : s.evolves s :=
  ⟨rfl, fun _ nd h => ⟨nd, h, Or.inl rfl⟩⟩

theorem Node.evolves_of_disposed {nd nd' : Node} (hd : nd.isUnsubscribed = true)
    (h : nd.evolves nd') : nd' = nd := by
  rcases h with h | ⟨ha, _⟩
  · exact h
  · rw [hd] at ha; exact Bool.noConfusion ha

theorem Store.evolves_trans {s1 s2 s3 : Store} (h12 : s1.evolves s2)
    (h23 : s2.evolves s3) : s1.evolves s3 := by
  refine ⟨h23.1.trans h12.1, fun j nd h => ?_⟩
  obtain ⟨nd2, h2, e12⟩ := h12.2 j nd h
  obtain ⟨nd3, h3, e23⟩ := h23.2 j nd2 h2
  refine ⟨nd3, h3, ?_⟩
  rcases e12 with e12 | ⟨ha, e12⟩
  · rw [e12] at e23; exact e23
  · have : nd3 = nd2 := Node.evolves_of_disposed (by rw [e12]) e23
    rw [this, e12]
    exact Or.inr ⟨ha, rfl⟩

theorem evolves_setNode {s : Store} {i : Nat} {nd : Node}
    (h : getNode s i = some nd) (ha : nd.isUnsubscribed = false) :
    s.evolves (setNode s i ⟨true, nd.action, none⟩) := by
  refine ⟨List.length_set _ _ _, fun j nd0 hj => ?_⟩
  by_cases hij : i = j
  · subst hij
    have : nd0 = nd := by
      rw [getNode] at h; rw [h] at hj; exact (Option.some.injEq _ _).mp hj.symm
    subst this
    exact ⟨⟨true, nd0.action, none⟩,
      List.get?_set_eq_of_lt _ (get?_some_lt (by rw [getNode] at h; exact h)),
      Or.inr ⟨ha, rfl⟩⟩
  · exact ⟨nd0, by rw [setNode]; simp only []; rw [List.get?_set_ne _ _ hij]; exact hj,
      Or.inl rfl⟩

theorem Store.evolves_of_nodes_eq {s s' : Store} (h : s'.nodes = s.nodes) :
    s.evolves s' :=
  ⟨by rw [h], fun _ nd hj => ⟨nd, by rw [h]; exact hj, Or.inl rfl⟩⟩

theorem runPrimary_nodes (env : Nat → Option JsError) (oa : Option Nat) (s : Store) :
    (runPrimary env oa s).1.nodes = s.nodes := by
  rcases oa with _ | a
  · rfl
  · rw [runPrimary]
    rcases env a with _ | e <;> rfl

theorem unsubStep_missing {env : Nat → Option JsError}
    {go : Nat → Store → Store × Option JsError} {i : Nat} {s : Store}
    (h : getNode s i = none) : unsubStep env go i s = (s, none) := by
  rw [unsubStep, h]

theorem unsubStep_disposed {env : Nat → Option JsError}
    {go : Nat → Store → Store × Option JsError} {i : Nat} {s : Store} {nd : Node}
    (h : getNode s i = some nd) (hd : nd.isUnsubscribed = true) :
    unsubStep env go i s = (s, none) := by
  rw [unsubStep, h]
  simp [hd]

theorem unsubStep_active {env : Nat → Option JsError}
    {go : Nat → Store → Store × Option JsError} {i : Nat} {s : Store} {nd : Node}
    (h : getNode s i = some nd) (hd : nd.isUnsubscribed = false) :
    unsubStep env go i s = unsubCore env go i nd s := by
  rw [unsubStep, h]
  simp [hd]

theorem unsubKidsF_evolves {step : Nat → Store → Store × Option JsError}
    (hstep : ∀ (j : Nat) (s : Store), s.evolves (step j s).1) :
    ∀ (js : List Nat) (s : Store), s.evolves (unsubKidsF step js s).1 := by
  intro js
  induction js with
  | nil => intro s; exact Store.evolves_refl s
  | cons j rest ih =>
    intro s
    exact Store.evolves_trans (hstep j s) (ih (step j s).1)

theorem unsubCore_evolves {env : Nat → Option JsError}
    {go : Nat → Store → Store × Option JsError}
    (hgo : ∀ (j : Nat) (s : Store), s.evolves (go j s).1)
    {i : Nat} {s : Store} {nd : Node}
    (h : getNode s i = some nd) (hd : nd.isUnsubscribed = false) :
    s.evolves (unsubCore env go i nd s).1 := by
  have e1 : s.evolves (setNode s i ⟨true, nd.action, none⟩) := evolves_setNode h hd
  have e2 : (setNode s i ⟨true, nd.action, none⟩).evolves
      (runPrimary env nd.action (setNode s i ⟨true, nd.action, none⟩)).1 :=
    Store.evolves_of_nodes_eq (runPrimary_nodes env nd.action _)
  exact Store.evolves_trans e1 (Store.evolves_trans e2 (unsubKidsF_evolves hgo _ _))

theorem unsubStep_evolves {env : Nat → Option JsError}
    {go : Nat → Store → Store × Option JsError}
    (hgo : ∀ (j : Nat) (s : Store), s.evolves (go j s).1) (i : Nat) (s : Store) :
    s.evolves (unsubStep env go i s).1 := by
  rcases h : getNode s i with _ | nd
  · rw [unsubStep_missing h]; exact Store.evolves_refl s
  · rcases hd : nd.isUnsubscribed with _ | _
    · rw [unsubStep_active h hd]; exact unsubCore_evolves hgo h hd
    · rw [unsubStep_disposed h hd]; exact Store.evolves_refl s

theorem unsubFuel_evolves (env : Nat → Option JsError) :
    ∀ (fuel i : Nat) (s : Store), s.evolves (unsubFuel env fuel i s).1 := by
  intro fuel
  induction fuel with
  | zero => intro i s; exact Store.evolves_refl s
  | succ fuel ih => intro i s; exact unsubStep_evolves ih i s

theorem unsubscribe_evolves (env : Nat → Option JsError) (i : Nat) (s : Store) :
    s.evolves (unsubscribe env i s).1 :=
  unsubFuel_evolves env (activeCount s) i s

theorem countP_set_inactive :
    ∀ (l : List Node) (i : Nat) (nd nd' : Node), l.get? i = some nd →
      activeP nd = true → activeP nd' = false →
      (l.set i nd').countP activeP + 1 = l.countP activeP := by
  intro l
  induction l with
  | nil => intro i nd nd' h _ _; exact Option.noConfusion h
  | cons x xs ih =>
    intro i nd nd' h ha ha'
    rcases i with _ | i
    · have hx : x = nd := (Option.some.injEq _ _).mp h
      subst hx
      simp [List.countP_cons, ha, ha']
    · have := ih i nd nd' h ha ha'
      simp only [List.set, List.countP_cons]
      omega

theorem activeCount_pos {s : Store} {i : Nat} {nd : Node}
    (h : getNode s i = some nd) (hd : nd.isUnsubscribed = false) :
    0 < activeCount s :=
  List.countP_pos.mpr ⟨nd, List.get?_mem h, by simp [activeP, hd]⟩

theorem activeCount_nodes_eq {s s' : Store} (h : s'.nodes = s.nodes) :
    activeCount s' = activeCount s := by
  rw [activeCount, activeCount, h]

theorem unsubKidsF_active_le {step : Nat → Store → Store × Option JsError}
    (hstep : ∀ (j : Nat) (s : Store), activeCount (step j s).1 ≤ activeCount s) :
    ∀ (js : List Nat) (s : Store), activeCount (unsubKidsF step js s).1 ≤ activeCount s := by
  intro js
  induction js with
  | nil => intro s; exact Nat.le_refl _
  | cons j rest ih =>
    intro s
    exact Nat.le_trans (ih (step j s).1) (hstep j s)

theorem unsubCore_active_lt {env : Nat → Option JsError}
    {go : Nat → Store → Store × Option JsError}
    (hgo : ∀ (j : Nat) (s : Store), activeCount (go j s).1 ≤ activeCount s)
    {i : Nat} {s : Store} {nd : Node}
    (h : getNode s i = some nd) (hd : nd.isUnsubscribed = false) :
    activeCount (unsubCore env go i nd s).1 + 1 ≤ activeCount s := by
  have h1 : activeCount (setNode s i ⟨true, nd.action, none⟩) + 1 = activeCount s :=
    countP_set_inactive s.nodes i nd _ h (by simp [activeP, hd]) (by simp [activeP])
  have h2 : activeCount
      (runPrimary env nd.action (setNode s i ⟨true, nd.action, none⟩)).1
      = activeCount (setNode s i ⟨true, nd.action, none⟩) :=
    activeCount_nodes_eq (runPrimary_nodes env nd.action _)
  have h3 := unsubKidsF_active_le hgo (nd.subs.getD [])
    (runPrimary env nd.action (setNode s i ⟨true, nd.action, none⟩)).1
  simp only [unsubCore]
  omega

theorem unsubStep_active_le {env : Nat → Option JsError}
    {go : Nat → Store → Store × Option JsError}
    (hgo : ∀ (j : Nat) (s : Store), activeCount (go j s).1 ≤ activeCount s)
    (i : Nat) (s : Store) :
    activeCount (unsubStep env go i s).1 ≤ activeCount s := by
  rcases h : getNode s i with _ | nd
  · rw [unsubStep_missing h]
  · rcases hd : nd.isUnsubscribed with _ | _
    · rw [unsubStep_active h hd]
      exact Nat.le_of_succ_le (unsubCore_active_lt hgo h hd)
    · rw [unsubStep_disposed h hd]

theorem unsubFuel_active_le (env : Nat → Option JsError) :
    ∀ (fuel i : Nat) (s : Store), activeCount (unsubFuel env fuel i s).1 ≤ activeCount s := by
  intro fuel
  induction fuel with
  | zero => intro i s; exact Nat.le_refl _
  | succ fuel ih => intro i s; exact unsubStep_active_le ih i s

theorem unsubKidsF_congr {n : Nat} {step1 step2 : Nat → Store → Store × Option JsError}
    (hmono : ∀ (j : Nat) (s : Store), activeCount (step1 j s).1 ≤ activeCount s)
    (heq : ∀ (j : Nat) (s : Store), activeCount s ≤ n → step1 j s = step2 j s) :
    ∀ (js : List Nat) (s : Store), activeCount s ≤ n →
      unsubKidsF step1 js s = unsubKidsF step2 js s := by
  intro js
  induction js with
  | nil => intro s _; rfl
  | cons j rest ih =>
    intro s hs
    have he := heq j s hs
    have hm : activeCount (step1 j s).1 ≤ n := Nat.le_trans (hmono j s) hs
    rw [unsubKidsF, unsubKidsF, ← he, ih (step1 j s).1 hm]

theorem unsubCore_congr {env : Nat → Option JsError}
    {go1 go2 : Nat → Store → Store × Option JsError} {i : Nat} {nd : Node} {s : Store}
    (hk : unsubKidsF go1 (nd.subs.getD [])
        (runPrimary env nd.action (setNode s i ⟨true, nd.action, none⟩)).1
      = unsubKidsF go2 (nd.subs.getD [])
        (runPrimary env nd.action (setNode s i ⟨true, nd.action, none⟩)).1) :
    unsubCore env go1 i nd s = unsubCore env go2 i nd s := by
  simp only [unsubCore]
  rw [hk]

theorem unsubFuel_succ (env : Nat → Option JsError) :
    ∀ (fuel i : Nat) (s : Store), activeCount s ≤ fuel →
      unsubFuel env (fuel + 1) i s = unsubFuel env fuel i s := by
  intro fuel
  induction fuel with
  | zero =>
    intro i s hs
    rcases h : getNode s i with _ | nd
    · rw [unsubFuel_succ_eq, unsubStep_missing h]; rfl
    · rcases hd : nd.isUnsubscribed with _ | _
      · exact absurd (Nat.lt_of_lt_of_le (activeCount_pos h hd) hs) (Nat.lt_irrefl 0)
      · rw [unsubFuel_succ_eq, unsubStep_disposed h hd]; rfl
  | succ fuel ih =>
    intro i s hs
    rcases h : getNode s i with _ | nd
    · rw [unsubFuel_succ_eq, unsubFuel_succ_eq, unsubStep_missing h, unsubStep_missing h]
    · rcases hd : nd.isUnsubscribed with _ | _
      · rw [unsubFuel_succ_eq, unsubFuel_succ_eq, unsubStep_active h hd, unsubStep_active h hd]
        refine unsubCore_congr ?_
        have h1 : activeCount (setNode s i ⟨true, nd.action, none⟩) + 1 = activeCount s :=
          countP_set_inactive s.nodes i nd _ h (by simp [activeP, hd]) (by simp [activeP])
        have h2 : activeCount
            (runPrimary env nd.action (setNode s i ⟨true, nd.action, none⟩)).1
            = activeCount (setNode s i ⟨true, nd.action, none⟩) :=
          activeCount_nodes_eq (runPrimary_nodes env nd.action _)
        exact unsubKidsF_congr (unsubFuel_active_le env (fuel + 1))
          (fun j s hj => ih j s hj) (nd.subs.getD []) _ (by omega)
      · rw [unsubFuel_succ_eq, unsubFuel_succ_eq, unsubStep_disposed h hd,
          unsubStep_disposed h hd]

theorem unsubFuel_add (env : Nat → Option JsError) :
    ∀ (k fuel i : Nat) (s : Store), activeCount s ≤ fuel →
      unsubFuel env (fuel + k) i s = unsubFuel env fuel i s := by
  intro k
  induction k with
  | zero => intro fuel i s _; rfl
  | succ k ih =>
    intro fuel i s hs
    have : fuel + (k + 1) = (fuel + k) + 1 := rfl
    rw [this, unsubFuel_succ env (fuel + k) i s (Nat.le_trans hs (Nat.le_add_right _ _)),
      ih fuel i s hs]

/-- Fuel adequacy: any fuel at least the number of still-active nodes
computes the disposal of the source; in particular the recursion of
unsubscribe is bounded by the number of active nodes. -/
theorem unsubFuel_eq_unsubscribe (env : Nat → Option JsError) (f i : Nat) (s : Store)
    (hf : activeCount s ≤ f) : unsubFuel env f i s = unsubscribe env i s := by
  have h : f = activeCount s + (f - activeCount s) := (Nat.add_sub_cancel' hf).symm
  rw [unsubscribe, h, unsubFuel_add env _ _ i s (Nat.le_refl _)]

theorem getNode_nodes_eq {s s' : Store} (h : s'.nodes = s.nodes) (j : Nat) :
    getNode s' j = getNode s j := by
  rw [getNode, getNode, h]

theorem getNode_setNode_self {s : Store} {i : Nat} {nd0 : Node}
    (h : getNode s i = some nd0) (nd : Node) :
    getNode (setNode s i nd) i = some nd := by
  rw [getNode, setNode]
  exact List.get?_set_eq_of_lt _ (get?_some_lt h)

theorem getNode_setNode_ne {s : Store} {i k : Nat} (h : i ≠ k) (nd : Node) :
    getNode (setNode s i nd) k = getNode s k := by
  rw [getNode, setNode]
  exact List.get?_set_ne _ _ h

theorem unsubFuel_noop_missing {env : Nat → Option JsError} {i : Nat} {s : Store}
    (h : getNode s i = none) (f : Nat) : unsubFuel env f i s = (s, none) := by
  rcases f with _ | f
  · rfl
  · rw [unsubFuel_succ_eq, unsubStep_missing h]

theorem unsubFuel_noop_disposed {env : Nat → Option JsError} {i : Nat} {s : Store}
    {nd : Node} (h : getNode s i = some nd) (hd : nd.isUnsubscribed = true) (f : Nat) :
    unsubFuel env f i s = (s, none) := by
  rcases f with _ | f
  · rfl
  · rw [unsubFuel_succ_eq, unsubStep_disposed h hd]

/-- Once the node's fields have been flipped to disposed-with-null-children,
the rest of the cascade leaves the node untouched. -/
theorem getNode_after_core {env : Nat → Option JsError}
    {go : Nat → Store → Store × Option JsError}
    (hgo : ∀ (j : Nat) (s : Store), s.evolves (go j s).1)
    {i : Nat} {s : Store} {nd : Node} (h : getNode s i = some nd) :
    getNode (unsubCore env go i nd s).1 i = some ⟨true, nd.action, none⟩ := by
  have h1 : getNode (setNode s i ⟨true, nd.action, none⟩) i
      = some ⟨true, nd.action, none⟩ := getNode_setNode_self h _
  have h2 : getNode (runPrimary env nd.action (setNode s i ⟨true, nd.action, none⟩)).1 i
      = some ⟨true, nd.action, none⟩ := by
    rw [getNode_nodes_eq (runPrimary_nodes env nd.action _)]
    exact h1
  have hev := unsubKidsF_evolves hgo (nd.subs.getD [])
    (runPrimary env nd.action (setNode s i ⟨true, nd.action, none⟩)).1
  obtain ⟨nd', hnd', hev'⟩ := hev.2 i ⟨true, nd.action, none⟩ h2
  have : nd' = ⟨true, nd.action, none⟩ := Node.evolves_of_disposed rfl hev'
  subst this
  exact hnd'

/-- After a real (first) disposal the node carries the disposed flag, keeps
its primary-action reference and has its child collection nulled out. -/
theorem unsubscribe_flips {env : Nat → Option JsError} {i : Nat} {s : Store} {nd : Node}
    (h : getNode s i = some nd) (hd : nd.isUnsubscribed = false) :
    getNode (unsubscribe env i s).1 i = some ⟨true, nd.action, none⟩ := by
  have hp := activeCount_pos h hd
  obtain ⟨k, hk⟩ : ∃ k, activeCount s = k + 1 := ⟨activeCount s - 1, by omega⟩
  rw [unsubscribe, hk, unsubFuel_succ_eq, unsubStep_active h hd]
  exact getNode_after_core (unsubFuel_evolves env k) h

theorem mergeChildErr_fst (e : Option JsError) (acc : Bool × List JsError) :
    (mergeChildErr e acc).1 = (e.isSome || acc.1) := by
  rcases e with _ | e
  · simp [mergeChildErr]
  · rcases e with n | l <;> simp [mergeChildErr]

theorem runPrimary_log (env : Nat → Option JsError) (oa : Option Nat) (s : Store) :
    ∃ d, (runPrimary env oa s).1.log = s.log ++ d
      ∧ (runPrimary env oa s).2.1 = d.any (fun a => (env a).isSome) := by
  rcases oa with _ | a
  · exact ⟨[], by simp [runPrimary], by simp [runPrimary]⟩
  · refine ⟨[a], ?_, ?_⟩ <;> rw [runPrimary] <;> rcases h : env a with _ | e <;> simp [h]

theorem unsubKidsF_log {env : Nat → Option JsError}
    {step : Nat → Store → Store × Option JsError}
    (hstep : ∀ (j : Nat) (s : Store), ∃ d, (step j s).1.log = s.log ++ d
      ∧ ((step j s).2.isSome = d.any (fun a => (env a).isSome))) :
    ∀ (js : List Nat) (s : Store), ∃ d, (unsubKidsF step js s).1.log = s.log ++ d
      ∧ ((unsubKidsF step js s).2.1 = d.any (fun a => (env a).isSome)) := by
  intro js
  induction js with
  | nil => intro s; exact ⟨[], by simp [unsubKidsF], by simp [unsubKidsF]⟩
  | cons j rest ih =>
    intro s
    obtain ⟨d1, hl1, hf1⟩ := hstep j s
    obtain ⟨d2, hl2, hf2⟩ := ih (step j s).1
    refine ⟨d1 ++ d2, ?_, ?_⟩
    · show (unsubKidsF step rest (step j s).1).1.log = s.log ++ (d1 ++ d2)
      rw [hl2, hl1, List.append_assoc]
    · show (mergeChildErr (step j s).2 (unsubKidsF step rest (step j s).1).2).1 = _
      rw [mergeChildErr_fst, hf1, hf2, List.any_append]

theorem unsubCore_log {env : Nat → Option JsError}
    {go : Nat → Store → Store × Option JsError}
    (hgo : ∀ (j : Nat) (s : Store), ∃ d, (go j s).1.log = s.log ++ d
      ∧ ((go j s).2.isSome = d.any (fun a => (env a).isSome)))
    (i : Nat) (nd : Node) (s : Store) :
    ∃ d, (unsubCore env go i nd s).1.log = s.log ++ d
      ∧ ((unsubCore env go i nd s).2.isSome = d.any (fun a => (env a).isSome)) := by
  obtain ⟨d0, hl0, hf0⟩ :=
    runPrimary_log env nd.action (setNode s i ⟨true, nd.action, none⟩)
  obtain ⟨d1, hl1, hf1⟩ := unsubKidsF_log hgo (nd.subs.getD [])
    (runPrimary env nd.action (setNode s i ⟨true, nd.action, none⟩)).1
  refine ⟨d0 ++ d1, ?_, ?_⟩
  · show (unsubKidsF go (nd.subs.getD [])
      (runPrimary env nd.action (setNode s i ⟨true, nd.action, none⟩)).1).1.log = _
    rw [hl1, hl0]
    show s.log ++ d0 ++ d1 = s.log ++ (d0 ++ d1)
    rw [List.append_assoc]
  · show (if (runPrimary env nd.action (setNode s i ⟨true, nd.action, none⟩)).2.1
        || (unsubKidsF go (nd.subs.getD [])
            (runPrimary env nd.action (setNode s i ⟨true, nd.action, none⟩)).1).2.1
      then some (JsError.unsub _) else none).isSome = _
    rw [List.any_append, ← hf0, ← hf1]
    rcases (runPrimary env nd.action (setNode s i ⟨true, nd.action, none⟩)).2.1 <;>
      rcases (unsubKidsF go (nd.subs.getD [])
        (runPrimary env nd.action (setNode s i ⟨true, nd.action, none⟩)).1).2.1 <;>
      rfl

theorem unsubStep_log {env : Nat → Option JsError}
    {go : Nat → Store → Store × Option JsError}
    (hgo : ∀ (j : Nat) (s : Store), ∃ d, (go j s).1.log = s.log ++ d
      ∧ ((go j s).2.isSome = d.any (fun a => (env a).isSome)))
    (i : Nat) (s : Store) :
    ∃ d, (unsubStep env go i s).1.log = s.log ++ d
      ∧ ((unsubStep env go i s).2.isSome = d.any (fun a => (env a).isSome)) := by
  rcases h : getNode s i with _ | nd
  · rw [unsubStep_missing h]; exact ⟨[], by simp, by simp⟩
  · rcases hd : nd.isUnsubscribed with _ | _
    · rw [unsubStep_active h hd]; exact unsubCore_log hgo i nd s
    · rw [unsubStep_disposed h hd]; exact ⟨[], by simp, by simp⟩

theorem unsubFuel_log (env : Nat → Option JsError) :
    ∀ (fuel i : Nat) (s : Store), ∃ d, (unsubFuel env fuel i s).1.log = s.log ++ d
      ∧ ((unsubFuel env fuel i s).2.isSome = d.any (fun a => (env a).isSome)) := by
  intro fuel
  induction fuel with
  | zero => intro i s; exact ⟨[], by simp [unsubFuel_zero], by simp [unsubFuel_zero]⟩
  | succ fuel ih => intro i s; exact unsubStep_log ih i s

theorem unsubscribe_log (env : Nat → Option JsError) (i : Nat) (s : Store) :
    ∃ d, (unsubscribe env i s).1.log = s.log ++ d
      ∧ ((unsubscribe env i s).2.isSome = d.any (fun a => (env a).isSome)) :=
  unsubFuel_log env (activeCount s) i s

/-- The remaining invocation budget of node j: 1 while j is an active node,
0 once it is disposed or absent. -/
def budJ (s : Store) (j : Nat) : Nat :=
  match getNode s j with
  | some nd => if nd.isUnsubscribed then 0 else 1
  | none => 0

theorem budJ_le_one (s : Store) (j : Nat) : budJ s j ≤ 1 := by
  rw [budJ]
  rcases getNode s j with _ | nd
  · exact Nat.zero_le 1
  · by_cases hb : nd.isUnsubscribed = true <;> simp [hb]

theorem budJ_nodes_eq {s s' : Store} (h : s'.nodes = s.nodes) (j : Nat) :
    budJ s' j = budJ s j := by
  rw [budJ, budJ, getNode_nodes_eq h]

theorem OnlyOwner_evolves {j a : Nat} {s s' : Store} (he : s.evolves s')
    (ho : OnlyOwner j a s) : OnlyOwner j a s' := by
  intro k hk hko
  have hk' : k < s.nodes.length := he.1 ▸ hk
  obtain ⟨nd, hnd⟩ : ∃ nd, s.nodes.get? k = some nd :=
    ⟨s.nodes.get ⟨k, hk'⟩, List.get?_eq_get hk'⟩
  obtain ⟨nd', hnd', hev⟩ := he.2 k nd hnd
  have haction : nd'.action = nd.action := by
    rcases hev with hev | ⟨_, hev⟩
    · rw [hev]
    · rw [hev]
  simp only [ownsA, getNode, hnd'] at hko
  apply ho k hk'
  simp only [ownsA, getNode, hnd]
  rw [← haction]
  exact hko

theorem selfUnsub_of {s : Store} {self : Nat} {nd : Node}
    (h : getNode s self = some nd) : selfUnsub s self = nd.isUnsubscribed := by
  rw [selfUnsub, h]

theorem ownsA_of {s : Store} {k a : Nat} {nd : Node} (h : getNode s k = some nd)
    (ha : nd.action = some a) : ownsA s k a = true := by
  have h1 : ownsA s k a = (nd.action == some a) := by
    rw [ownsA, h]
  rw [h1, ha]
  simp

theorem unsubKidsF_count {a j : Nat}
    {step : Nat → Store → Store × Option JsError}
    (hev : ∀ (j' : Nat) (s : Store), s.evolves (step j' s).1)
    (hstep : ∀ (j' : Nat) (s : Store), OnlyOwner j a s →
      (step j' s).1.log.count a + budJ (step j' s).1 j ≤ s.log.count a + budJ s j) :
    ∀ (js : List Nat) (s : Store), OnlyOwner j a s →
      (unsubKidsF step js s).1.log.count a + budJ (unsubKidsF step js s).1 j
        ≤ s.log.count a + budJ s j := by
  intro js
  induction js with
  | nil => intro s _; exact Nat.le_refl _
  | cons j' rest ih =>
    intro s ho
    exact Nat.le_trans (ih (step j' s).1 (OnlyOwner_evolves (hev j' s) ho)) (hstep j' s ho)

theorem unsubCore_count {env : Nat → Option JsError}
    {go : Nat → Store → Store × Option JsError} {a j : Nat}
    (hgoev : ∀ (j' : Nat) (s : Store), s.evolves (go j' s).1)
    (hgo : ∀ (j' : Nat) (s : Store), OnlyOwner j a s →
      (go j' s).1.log.count a + budJ (go j' s).1 j ≤ s.log.count a + budJ s j)
    {i : Nat} {s : Store} {nd : Node}
    (h : getNode s i = some nd) (hd : nd.isUnsubscribed = false)
    (ho : OnlyOwner j a s) :
    (unsubCore env go i nd s).1.log.count a + budJ (unsubCore env go i nd s).1 j
      ≤ s.log.count a + budJ s j := by
  set s1 := setNode s i ⟨true, nd.action, none⟩ with hs1
  set s2 := runPrimary env nd.action s1 with hs2
  -- the flip step: log unchanged, budget drops exactly when i = j
  have hlog1 : s1.log = s.log := rfl
  have hbud1 : budJ s1 j + (if i = j then 1 else 0) = budJ s j := by
    by_cases hij : i = j
    · subst hij
      have h1 : getNode s1 i = some ⟨true, nd.action, none⟩ := by
        rw [hs1]; exact getNode_setNode_self h _
      simp only [budJ, h1, h, hd]
      simp
    · have h1 : getNode s1 j = getNode s j := by
        rw [hs1]; exact getNode_setNode_ne hij _
      simp only [budJ, h1]
      simp [hij]
  -- the primary action appends its own id; by unique ownership it can be a
  -- only when i = j
  have hcount2 : s2.1.log.count a ≤ s1.log.count a + (if i = j then 1 else 0) := by
    rcases hact : nd.action with _ | a0
    · rw [hs2, hact]
      exact Nat.le_add_right _ _
    · have hl : s2.1.log = s1.log ++ [a0] := by
        rw [hs2, hact]
        simp only [runPrimary]
        rcases henv : env a0 with _ | e <;> simp [henv]
      rw [hl, List.count_append]
      by_cases ha0 : a0 = a
      · have hij : i = j := by
          refine ho i (get?_some_lt (show s.nodes.get? i = some nd from h)) ?_
          exact ownsA_of h (by rw [hact, ha0])
        simp [hij, ha0]
      · have : List.count a [a0] = 0 := by
          simp [List.count_singleton']
          exact fun hc => absurd hc ha0
        rw [this]
        simp
  have hbud2 : budJ s2.1 j = budJ s1 j := budJ_nodes_eq (runPrimary_nodes env nd.action s1) j
  -- the children loop preserves the combined budgeted count
  have hev1 : s.evolves s1 := evolves_setNode h hd
  have hev2 : s1.evolves s2.1 := Store.evolves_of_nodes_eq (runPrimary_nodes env nd.action s1)
  have ho2 : OnlyOwner j a s2.1 :=
    OnlyOwner_evolves hev2 (OnlyOwner_evolves hev1 ho)
  have hkids := unsubKidsF_count hgoev hgo (nd.subs.getD []) s2.1 ho2
  have hfst : (unsubCore env go i nd s).1 = (unsubKidsF go (nd.subs.getD []) s2.1).1 := rfl
  rw [hfst]
  rw [hlog1] at hcount2
  omega

theorem unsubStep_count {env : Nat → Option JsError}
    {go : Nat → Store → Store × Option JsError} {a j : Nat}
    (hgoev : ∀ (j' : Nat) (s : Store), s.evolves (go j' s).1)
    (hgo : ∀ (j' : Nat) (s : Store), OnlyOwner j a s →
      (go j' s).1.log.count a + budJ (go j' s).1 j ≤ s.log.count a + budJ s j)
    (i : Nat) (s : Store) (ho : OnlyOwner j a s) :
    (unsubStep env go i s).1.log.count a + budJ (unsubStep env go i s).1 j
      ≤ s.log.count a + budJ s j := by
  rcases h : getNode s i with _ | nd
  · rw [unsubStep_missing h]
  · rcases hd : nd.isUnsubscribed with _ | _
    · rw [unsubStep_active h hd]
      exact unsubCore_count hgoev hgo h hd ho
    · rw [unsubStep_disposed h hd]

theorem unsubFuel_count (env : Nat → Option JsError) (a j : Nat) :
    ∀ (fuel i : Nat) (s : Store), OnlyOwner j a s →
      (unsubFuel env fuel i s).1.log.count a + budJ (unsubFuel env fuel i s).1 j
        ≤ s.log.count a + budJ s j := by
  intro fuel
  induction fuel with
  | zero => intro i s _; exact Nat.le_refl _
  | succ fuel ih =>
    intro i s ho
    exact unsubStep_count (unsubFuel_evolves env fuel) (fun j' s' ho' => ih j' s' ho') i s ho

/-- Unique ownership bounds invocations: one disposal cascade runs an action
owned by a single node at most once more than it already appears in the log. -/
theorem unsubscribe_count {env : Nat → Option JsError} {a j i : Nat} {s : Store}
    (ho : OnlyOwner j a s) :
    (unsubscribe env i s).1.log.count a ≤ s.log.count a + 1 := by
  have h := unsubFuel_count env a j (activeCount s) i s ho
  have hb := budJ_le_one s j
  rw [unsubscribe]
  omega

theorem set_concat_length {α : Type} :
    ∀ (l : List α) (x y : α), (l ++ [x]).set l.length y = l ++ [y]
  | [], _, _ => rfl
  | z :: zs, x, y => by
    show z :: (zs ++ [x]).set zs.length y = z :: (zs ++ [y])
    rw [set_concat_length zs x y]

theorem set_get?_self {α : Type} :
    ∀ (l : List α) (i : Nat) (x : α), l.get? i = some x → l.set i x = l
  | [], _, _, h => Option.noConfusion h
  | z :: _, 0, x, h => by
    have hz : z = x := (Option.some.injEq _ _).mp h
    rw [List.set, hz]
  | _ :: zs, i + 1, x, h => by
    rw [List.set, set_get?_self zs i x h]

/-- Disposing a freshly allocated wrapper subscription (active, primary
action a, no children) placed at the end of the heap: the wrapper ends
disposed, the action is invoked once, and a failure is thrown wrapped as a
one-entry UnsubscriptionError. -/
theorem unsubscribe_fresh_wrapper (env : Nat → Option JsError) (a : Nat) (s : Store) :
    unsubscribe env s.nodes.length { s with nodes := s.nodes ++ [⟨false, some a, none⟩] } =
      ({ nodes := s.nodes ++ [⟨true, some a, none⟩], log := s.log ++ [a] },
       match env a with
       | none => none
       | some e => some (.unsub [e])) := by
  have hw : getNode { s with nodes := s.nodes ++ [⟨false, some a, none⟩] } s.nodes.length
      = some ⟨false, some a, none⟩ := by
    rw [getNode]
    exact List.get?_concat_length _ _
  have hcnt : activeCount { s with nodes := s.nodes ++ [⟨false, some a, none⟩] }
      = activeCount s + 1 := by
    rw [activeCount, activeCount]
    show (s.nodes ++ [(⟨false, some a, none⟩ : Node)]).countP activeP = _
    rw [List.countP_append]
    rfl
  have hnodes : (s.nodes ++ [(⟨false, some a, none⟩ : Node)]).set s.nodes.length
        ⟨true, some a, none⟩ = s.nodes ++ [⟨true, some a, none⟩] :=
    set_concat_length _ _ _
  have hset : setNode { s with nodes := s.nodes ++ [⟨false, some a, none⟩] }
        s.nodes.length ⟨true, some a, none⟩
      = { nodes := s.nodes ++ [⟨true, some a, none⟩], log := s.log } := by
    rw [setNode]
    exact congrArg (fun l => ({ nodes := l, log := s.log } : Store)) hnodes
  rw [unsubscribe, hcnt, unsubFuel_succ_eq, unsubStep_active hw rfl]
  simp only [unsubCore, hset, runPrimary]
  rcases henv : env a with _ | e <;> simp [unsubKidsF]

theorem setNode_setNode (s : Store) (i : Nat) (x y : Node) :
    setNode (setNode s i x) i y = setNode s i y := by
  rw [setNode, setNode, setNode]
  exact congrArg (fun l => ({ nodes := l, log := s.log } : Store)) (List.set_set x y s.nodes i)

theorem setNode_eq_self {s : Store} {i : Nat} {nd : Node}
    (h : getNode s i = some nd) : setNode s i nd = s := by
  rw [setNode, set_get?_self s.nodes i nd h]

/-- Across one cascade a node's child list is unchanged or nulled out. -/
theorem childrenOf_evolves_cases {s s' : Store} (he : s.evolves s') (i : Nat) :
    childrenOf s' i = childrenOf s i ∨ childrenOf s' i = [] := by
  rcases h : getNode s i with _ | nd
  · left
    have hlen : s.nodes.length ≤ i := by
      by_contra hc
      rw [getNode, List.get?_eq_get (Nat.lt_of_not_le hc)] at h
      exact Option.noConfusion h
    have h' : getNode s' i = none := by
      rw [getNode, List.get?_eq_none]
      rw [he.1]
      exact hlen
    rw [childrenOf, childrenOf, h, h']
  · obtain ⟨nd', hnd', hev⟩ := he.2 i nd h
    rcases hev with hev | ⟨_, hev⟩
    · left
      rw [childrenOf, childrenOf, h, getNode, hnd', hev]
    · right
      rw [childrenOf, getNode, hnd', hev]
      rfl

/-- Is an error value an UnsubscriptionError (an aggregate teardown error)? -/
def isAggregate : JsError → Bool
  | .unsub _ => true
  | _ => false

/-- An environment in which every action succeeds. -/
def envNone : Nat → Option JsError := fun _ => none

/-- A store with the EMPTY sentinel and one active registry owning action 7. -/
def storeW : Store := ⟨[emptyNode, ⟨false, some 7, none⟩], []⟩

/-- The C1 tree: node 1 is the parent with primary action 4 and children
2 and 3 in that insertion order; child 2 owns action 1; child 3 has
children 4 and 5 owning actions 2 and 3. -/
def treeC1 : Store :=
  ⟨[emptyNode,
    ⟨false, some 4, some [2, 3]⟩,
    ⟨false, some 1, none⟩,
    ⟨false, none, some [4, 5]⟩,
    ⟨false, some 2, none⟩,
    ⟨false, some 3, none⟩], []⟩

/-- The C1 environment: actions 1, 2, 3 throw the raw errors e1, e2, e3 and
action 4 (the parent primary) throws e4; everything else succeeds. -/
def envC1 (e1 e2 e3 : Nat) (e4 : JsError) : Nat → Option JsError :=
  fun a =>
    match a with
    | 1 => some (.raw e1)
    | 2 => some (.raw e2)
    | 3 => some (.raw e3)
    | 4 => some e4
    | _ => none

/-- The C1 tree after disposal: every node disposed with its child list
nulled, and the log records the primary first, then the children in
insertion order — all four teardown steps were attempted. -/
def treeC1After : Store :=
  ⟨[emptyNode,
    ⟨true, some 4, none⟩,
    ⟨true, some 1, none⟩,
    ⟨true, none, none⟩,
    ⟨true, some 2, none⟩,
    ⟨true, some 3, none⟩], [4, 1, 2, 3]⟩

/-- C1: error flattening law.  With child 2 failing with raw e1, child 3's
subtree yielding an aggregate of [e2, e3] (second conjunct), and the
parent's primary action failing with e4, disposing the parent attempts every
child regardless of earlier failures (the final log is [4, 1, 2, 3] and all
nodes end disposed, per treeC1After) and signals an aggregate whose list is
exactly [e4, e1, e2, e3]: primary first, then children in insertion order,
with the child aggregate spliced in flat. -/
theorem claim_C1_flattening (e1 e2 e3 : Nat) (e4 : JsError) :
    unsubscribe (envC1 e1 e2 e3 e4) 1 treeC1 =
      (treeC1After, some (.unsub [e4, .raw e1, .raw e2, .raw e3]))
    ∧ (unsubscribe (envC1 e1 e2 e3 e4) 3 treeC1).2 =
      some (.unsub [.raw e2, .raw e3]) :=
  ⟨rfl, rfl⟩

/-- The C3 counterexample store: one active registry whose primary action is
action 7. -/
def storeC3 : Store := ⟨[emptyNode, ⟨false, some 7, none⟩], []⟩

/-- The C3 counterexample environment: the primary action itself throws an
UnsubscriptionError carrying [raw 0]. -/
def envC3 : Nat → Option JsError :=
  fun a =>
    match a with
    | 7 => some (.unsub [.raw 0])
    | _ => none

/-- C3 counterexample: when the primary action's own failure is an aggregate
teardown error, unsubscribe pushes it as a single entry without flattening,
so the signaled error list contains an aggregate object as an element —
refuting the claim that the list never contains one. -/
theorem claim_C3_counterexample :
    (unsubscribe envC3 1 storeC3).2 = some (.unsub [.unsub [.raw 0]])
    ∧ isAggregate (.unsub [.raw 0]) = true :=
  ⟨rfl, rfl⟩

/-- C3 amended: dispose signals an aggregate teardown error exactly when at
least one teardown action invoked during that call failed (the invocations
of the call being the log delta), but the carried list may contain an
aggregate element, because the primary action's failure is appended as a
single entry even when it is itself an aggregate. -/
theorem claim_C3_amended (env : Nat → Option JsError) (i : Nat) (s : Store) :
    (unsubscribe env i s).2.isSome = true ↔
      ∃ a ∈ (unsubscribe env i s).1.log.drop s.log.length, (env a).isSome = true := by
  obtain ⟨d, hl, hf⟩ := unsubscribe_log env i s
  rw [hl, List.drop_left, hf]
  exact List.any_eq_true

/-- C4 counterexample: a truthy object that exposes no disposal operation is
silently dropped by add (the source breaks out of the switch without
throwing), not signaled as a usage error. -/
theorem claim_C4_counterexample :
    add envNone 1 Teardown.tobjNoUnsub storeW = (storeW, .ok)
    ∧ AddOutcome.ok ≠ AddOutcome.usageError :=
  ⟨rfl, fun h => AddOutcome.noConfusion h⟩

/-- C2: dispose idempotency.  The second dispose call returns the store of
the first call unchanged — no teardown invocation is appended to the log, no
node changes, and no error is signaled — even when the first call signaled
an aggregate error; and under unique ownership of action a by node j, one
cascade appends at most one invocation of a to the log. -/
theorem claim_C2_idempotent (env : Nat → Option JsError) (i : Nat) (s : Store)
    (j a : Nat) (ho : OnlyOwner j a s) :
    unsubscribe env i ((unsubscribe env i s).1) = ((unsubscribe env i s).1, none)
    ∧ (unsubscribe env i s).1.log.count a ≤ s.log.count a + 1 := by
  refine ⟨?_, unsubscribe_count ho⟩
  rcases h : getNode s i with _ | nd
  · have h1 : unsubscribe env i s = (s, none) := by
      rw [unsubscribe]; exact unsubFuel_noop_missing h _
    rw [h1]
    exact h1
  · rcases hd : nd.isUnsubscribed with _ | _
    · have h2 : getNode (unsubscribe env i s).1 i = some ⟨true, nd.action, none⟩ :=
        unsubscribe_flips h hd
      rw [unsubscribe]
      exact unsubFuel_noop_disposed h2 rfl _
    · have h1 : unsubscribe env i s = (s, none) := by
        rw [unsubscribe]; exact unsubFuel_noop_disposed h hd _
      rw [h1]
      exact h1

/-- C2 witness: in the concrete two-node store, action 7 is owned only by
node 1, the second dispose is a strict no-op and action 7 runs at most
once. -/
theorem claim_C2_witness :
    OnlyOwner 1 7 storeW
    ∧ (unsubscribe envNone 1 ((unsubscribe envNone 1 storeW).1)
        = ((unsubscribe envNone 1 storeW).1, none)
      ∧ (unsubscribe envNone 1 storeW).1.log.count 7 ≤ storeW.log.count 7 + 1) :=
  ⟨by decide, claim_C2_idempotent envNone 1 storeW 1 7 (by decide)⟩

/-- C5 counterexample: after dispose, the node still holds its primary
action reference (some 7) — the source nulls out _subscriptions but never
clears _unsubscribe — refuting the claim that both references are
released. -/
theorem claim_C5_counterexample :
    getNode (unsubscribe envNone 1 storeW).1 1 = some ⟨true, some 7, none⟩
    ∧ (some 7 : Option Nat) ≠ none :=
  ⟨rfl, fun h => Option.noConfusion h⟩

/-- C5 amended: after the first dispose call returns, the child-collection
reference is released (set to absent), while the primary-action reference is
retained unchanged on the instance; the disposed flag is set, so no later
dispose can run it again. -/
theorem claim_C5_amended (env : Nat → Option JsError) (i : Nat) (s : Store) (nd : Node)
    (h : getNode s i = some nd) (hd : nd.isUnsubscribed = false) :
    getNode (unsubscribe env i s).1 i = some ⟨true, nd.action, none⟩ :=
  unsubscribe_flips h hd

/-- C5 witness: concrete instance of the amended claim. -/
theorem claim_C5_witness :
    getNode storeW 1 = some ⟨false, some 7, none⟩
    ∧ getNode (unsubscribe envNone 1 storeW).1 1 = some ⟨true, some 7, none⟩ :=
  ⟨rfl, claim_C5_amended envNone 1 storeW ⟨false, some 7, none⟩ rfl rfl⟩

/-- A store with the EMPTY sentinel and one active registry owning action 5,
used to exhibit the effect of adding an active subscription to EMPTY. -/
def storeC6 : Store := ⟨[emptyNode, ⟨false, some 5, none⟩], []⟩

/-- C6 counterexample: adding an active subscription to the pre-disposed
EMPTY sentinel is not a no-op — it changes the store, disposing the argument
immediately (node 1 ends disposed with its action reference intact). -/
theorem claim_C6_counterexample :
    (add envNone 0 (Teardown.tsub 1) storeC6).1 ≠ storeC6
    ∧ getNode (add envNone 0 (Teardown.tsub 1) storeC6).1 1 = some ⟨true, some 5, none⟩ := by
  refine ⟨?_, ?_⟩ <;> decide

/-- C6 amended: the EMPTY sentinel stays pre-disposed forever: disposing it
any number of times is a strict no-op, EMPTY never gains children and is
never mutated by add (its node stays exactly the pre-disposed empty node,
though add on EMPTY may dispose its still-active argument), and adding EMPTY
to any registry leaves the store untouched. -/
theorem claim_C6_amended (env : Nat → Option JsError) (s : Store)
    (h0 : getNode s 0 = some emptyNode) (td : Teardown) (self : Nat) :
    unsubscribe env 0 s = (s, none)
    ∧ getNode (add env 0 td s).1 0 = some emptyNode
    ∧ add env self (Teardown.tsub 0) s = (s, .ok) := by
  refine ⟨?_, ?_, ?_⟩
  · rw [unsubscribe]
    exact unsubFuel_noop_disposed h0 rfl _
  · rcases td with _ | a | j | _ | _
    · exact h0
    · have hsu : selfUnsub s 0 = true := by rw [selfUnsub, h0]; rfl
      have hadd : (add env 0 (Teardown.tfunc a) s).1
          = (unsubscribe env s.nodes.length
              { s with nodes := s.nodes ++ [⟨false, some a, none⟩] }).1 := by
        simp [add, hsu]
      rw [hadd]
      have h0' : getNode { s with nodes := s.nodes ++ [⟨false, some a, none⟩] } 0
          = some emptyNode := by
        rw [getNode]
        show (s.nodes ++ _).get? 0 = _
        rw [List.get?_append (get?_some_lt (show s.nodes.get? 0 = some emptyNode from h0))]
        exact h0
      obtain ⟨nd', hnd', hev⟩ := (unsubscribe_evolves env _ _).2 0 emptyNode h0'
      rw [Node.evolves_of_disposed rfl hev] at hnd'
      exact hnd'
    · by_cases hj : j = 0
      · subst hj; exact h0
      · rcases hgj : getNode s j with _ | jnd
        · have : (add env 0 (Teardown.tsub j) s).1 = s := by
            simp [add, hj, emptyId, hgj]
          rw [this]; exact h0
        · rcases hjd : jnd.isUnsubscribed with _ | _
          · have hsu : selfUnsub s 0 = true := by rw [selfUnsub, h0]; rfl
            have hadd : (add env 0 (Teardown.tsub j) s).1 = (unsubscribe env j s).1 := by
              simp [add, hj, emptyId, hgj, hjd, hsu]
            rw [hadd]
            obtain ⟨nd', hnd', hev⟩ := (unsubscribe_evolves env j s).2 0 emptyNode h0
            rw [Node.evolves_of_disposed rfl hev] at hnd'
            exact hnd'
          · have : (add env 0 (Teardown.tsub j) s).1 = s := by
              simp [add, hj, emptyId, hgj, hjd]
            rw [this]; exact h0
    · exact h0
    · exact h0
  · by_cases hs : (0 : Nat) = self
    · rw [← hs]; simp [add]
    · simp [add, hs, emptyId]

/-- C6 witness: concrete instance of the amended claim with a concrete
teardown and registry. -/
theorem claim_C6_witness :
    getNode storeC6 0 = some emptyNode
    ∧ (unsubscribe envNone 0 storeC6 = (storeC6, none)
      ∧ getNode (add envNone 0 (Teardown.tsub 1) storeC6).1 0 = some emptyNode
      ∧ add envNone 1 (Teardown.tsub 0) storeC6 = (storeC6, .ok)) :=
  ⟨rfl, claim_C6_amended envNone storeC6 rfl (Teardown.tsub 1) 1⟩

/-- C7: deferred-immediate execution.  On a disposed registry, add with an
active subscription runs exactly that subscription's disposal synchronously
(the result of add is the result of the child's unsubscribe, with any error
propagated to the caller untouched by any aggregation of the parent), the
child ends disposed; and add with a callable allocates the wrapper, runs it
immediately, leaves it disposed at the end of the heap, and propagates its
failure (the one-entry aggregate thrown by the wrapper's own unsubscribe)
straight to the caller. -/
theorem claim_C7_deferred (env : Nat → Option JsError) (self j a : Nat) (s : Store)
    (snd jnd : Node)
    (hself : getNode s self = some snd) (hsd : snd.isUnsubscribed = true)
    (hj : getNode s j = some jnd) (hja : jnd.isUnsubscribed = false)
    (hjs : j ≠ self) (hj0 : j ≠ emptyId) :
    add env self (Teardown.tsub j) s
      = ((unsubscribe env j s).1, outcomeOfErr (unsubscribe env j s).2)
    ∧ getNode (add env self (Teardown.tsub j) s).1 j = some ⟨true, jnd.action, none⟩
    ∧ add env self (Teardown.tfunc a) s
      = ({ nodes := s.nodes ++ [⟨true, some a, none⟩], log := s.log ++ [a] },
         outcomeOfErr ((env a).map (fun e => JsError.unsub [e]))) := by
  have hsu : selfUnsub s self = true := (selfUnsub_of hself).trans hsd
  have ha : add env self (Teardown.tsub j) s
      = ((unsubscribe env j s).1, outcomeOfErr (unsubscribe env j s).2) := by
    simp [add, hjs, hj0, hj, hja, hsu]
  refine ⟨ha, ?_, ?_⟩
  · rw [ha]
    exact unsubscribe_flips hj hja
  · have hb : add env self (Teardown.tfunc a) s
        = ((unsubscribe env s.nodes.length
            { s with nodes := s.nodes ++ [⟨false, some a, none⟩] }).1,
           outcomeOfErr (unsubscribe env s.nodes.length
            { s with nodes := s.nodes ++ [⟨false, some a, none⟩] }).2) := by
      simp [add, hsu]
    rw [hb, unsubscribe_fresh_wrapper]
    rcases henv : env a with _ | e <;> simp [henv, outcomeOfErr]

/-- C7 fixtures: a disposed parent (node 1) and an active child (node 2)
whose action 2 throws raw 1. -/
def storeC7 : Store := ⟨[emptyNode, ⟨true, none, none⟩, ⟨false, some 2, none⟩], []⟩

def envC7 : Nat → Option JsError :=
  fun a =>
    match a with
    | 2 => some (.raw 1)
    | _ => none

/-- C7 witness: concrete instance of the deferred-immediate claim. -/
theorem claim_C7_witness :
    getNode storeC7 1 = some ⟨true, none, none⟩
    ∧ getNode storeC7 2 = some ⟨false, some 2, none⟩
    ∧ (add envC7 1 (Teardown.tsub 2) storeC7
        = ((unsubscribe envC7 2 storeC7).1, outcomeOfErr (unsubscribe envC7 2 storeC7).2)
      ∧ getNode (add envC7 1 (Teardown.tsub 2) storeC7).1 2 = some ⟨true, some 2, none⟩
      ∧ add envC7 1 (Teardown.tfunc 9) storeC7
        = ({ nodes := storeC7.nodes ++ [⟨true, some 9, none⟩], log := storeC7.log ++ [9] },
           outcomeOfErr ((envC7 9).map (fun e => JsError.unsub [e])))) :=
  ⟨rfl, rfl, claim_C7_deferred envC7 1 2 9 storeC7 ⟨true, none, none⟩ ⟨false, some 2, none⟩
    rfl rfl rfl rfl (by decide) (by decide)⟩

/-- C8: removal semantics.  remove is a no-op on a null argument, on the
registry itself, on EMPTY, and on an argument not found in the child list;
otherwise it detaches exactly the first entry identical to its argument
(leaving every node and the log untouched — nothing is disposed); and a
child added and then removed leaves the store exactly as before the add, so
its teardown is never invoked by the parent's later cascade. -/
theorem claim_C8_remove (env : Nat → Option JsError) (self j k1 k2 : Nat) (s : Store)
    (nd jnd : Node) (l : List Nat)
    (hself : getNode s self = some nd) (hact : nd.isUnsubscribed = false)
    (hsubs : nd.subs = some l)
    (hj : getNode s j = some jnd) (hja : jnd.isUnsubscribed = false)
    (hjl : j ∉ l) (hjs : j ≠ self) (hj0 : j ≠ emptyId)
    (hk1s : k1 ≠ self) (hk10 : k1 ≠ emptyId) (hk1l : k1 ∉ l)
    (hk2s : k2 ≠ self) (hk20 : k2 ≠ emptyId) (hk2l : k2 ∈ l) :
    remove self none s = s
    ∧ remove self (some self) s = s
    ∧ remove self (some emptyId) s = s
    ∧ remove self (some k1) s = s
    ∧ remove self (some k2) s
      = setNode s self ⟨nd.isUnsubscribed, nd.action, some (l.erase k2)⟩
    ∧ remove self (some j) ((add env self (Teardown.tsub j) s).1) = s := by
  refine ⟨rfl, ?_, ?_, ?_, ?_, ?_⟩
  · simp [remove]
  · by_cases h0 : emptyId = self <;> simp [remove, h0]
  · simp [remove, hk1s, hk10, hself, hsubs, hk1l]
  · simp [remove, hk2s, hk20, hself, hsubs, hk2l]
  · have hsu : selfUnsub s self = false := (selfUnsub_of hself).trans hact
    have hadd : (add env self (Teardown.tsub j) s).1
        = setNode s self ⟨nd.isUnsubscribed, nd.action, some (l ++ [j])⟩ := by
      simp [add, hjs, hj0, hj, hja, hsu, pushChild, hself, hsubs]
    rw [hadd]
    have hself2 : getNode (setNode s self ⟨nd.isUnsubscribed, nd.action, some (l ++ [j])⟩) self
        = some ⟨nd.isUnsubscribed, nd.action, some (l ++ [j])⟩ :=
      getNode_setNode_self hself _
    have hjmem : j ∈ l ++ [j] := by simp
    have herase : (l ++ [j]).erase j = l := by
      rw [List.erase_append_right _ hjl]
      simp
    have hrem : remove self (some j)
          (setNode s self ⟨nd.isUnsubscribed, nd.action, some (l ++ [j])⟩)
        = setNode (setNode s self ⟨nd.isUnsubscribed, nd.action, some (l ++ [j])⟩) self
            ⟨nd.isUnsubscribed, nd.action, some l⟩ := by
      simp [remove, hjs, hj0, hself2, hjmem, herase]
    rw [hrem, setNode_setNode]
    have hnd : (⟨nd.isUnsubscribed, nd.action, some l⟩ : Node) = nd := by
      rcases nd with ⟨b, oa, os⟩
      change os = some l at hsubs
      rw [hsubs]
    rw [hnd]
    exact setNode_eq_self hself

/-- C8 fixture: node 1 owns children [3, 4, 3] (a duplicate, to exercise
first-occurrence removal); node 2 is an unrelated active registry. -/
def storeC8 : Store :=
  ⟨[emptyNode,
    ⟨false, none, some [3, 4, 3]⟩,
    ⟨false, some 1, none⟩,
    ⟨false, some 2, none⟩,
    ⟨false, some 3, none⟩], []⟩

/-- C8 witness: the no-ops, the first-occurrence detach (only the first 3 is
removed) and the add-then-remove restoration on the concrete store. -/
theorem claim_C8_witness :
    remove 1 none storeC8 = storeC8
    ∧ remove 1 (some 1) storeC8 = storeC8
    ∧ remove 1 (some emptyId) storeC8 = storeC8
    ∧ remove 1 (some 5) storeC8 = storeC8
    ∧ remove 1 (some 3) storeC8
      = setNode storeC8 1 ⟨false, none, some ([3, 4, 3].erase 3)⟩
    ∧ remove 1 (some 2) ((add envNone 1 (Teardown.tsub 2) storeC8).1) = storeC8 :=
  claim_C8_remove envNone 1 2 5 3 storeC8 ⟨false, none, some [3, 4, 3]⟩
    ⟨false, some 1, none⟩ [3, 4, 3] rfl rfl rfl rfl rfl (by decide) (by decide) (by decide)
    (by decide) (by decide) (by decide) (by decide) (by decide) (by decide)

/-- C9: cycle safety.  Adding a registry to itself returns at once and
changes nothing; no add call can ever make a registry its own child; and the
disposal recursion is bounded by the number of active nodes — any fuel at
least that number computes the same disposal, so a self-reference can never
drive unbounded recursion. -/
theorem claim_C9_cycle (env : Nat → Option JsError) (self f : Nat) (s : Store)
    (td : Teardown) (hv : self < s.nodes.length) :
    add env self (Teardown.tsub self) s = (s, .ok)
    ∧ (self ∉ childrenOf s self → self ∉ childrenOf (add env self td s).1 self)
    ∧ (activeCount s ≤ f → unsubFuel env f self s = unsubscribe env self s) := by
  refine ⟨by simp [add], ?_, fun hf => unsubFuel_eq_unsubscribe env f self s hf⟩
  intro hns
  obtain ⟨snd, hsnd⟩ : ∃ snd, getNode s self = some snd :=
    ⟨s.nodes.get ⟨self, hv⟩, List.get?_eq_get hv⟩
  have hnsl : self ∉ snd.subs.getD [] := by
    rw [childrenOf, hsnd] at hns
    exact hns
  rcases td with _ | a | j | _ | _
  · exact hns
  · have hga : getNode { s with nodes := s.nodes ++ [⟨false, some a, none⟩] } self
        = some snd := by
      rw [getNode]
      show (s.nodes ++ _).get? self = _
      rw [List.get?_append hv]
      exact hsnd
    rcases hsu : selfUnsub s self with _ | _
    · have hadd : (add env self (Teardown.tfunc a) s).1
          = setNode { s with nodes := s.nodes ++ [⟨false, some a, none⟩] } self
              ⟨snd.isUnsubscribed, snd.action, some (snd.subs.getD [] ++ [s.nodes.length])⟩ := by
        simp [add, hsu, pushChild, hga]
      rw [hadd, childrenOf, getNode_setNode_self hga]
      intro hmem
      rcases List.mem_append.mp hmem with hm | hm
      · exact hnsl hm
      · rw [List.mem_singleton] at hm
        exact Nat.ne_of_lt hv hm
    · have hadd : (add env self (Teardown.tfunc a) s).1
          = (unsubscribe env s.nodes.length
              { s with nodes := s.nodes ++ [⟨false, some a, none⟩] }).1 := by
        simp [add, hsu]
      have hca : childrenOf { s with nodes := s.nodes ++ [⟨false, some a, none⟩] } self
          = childrenOf s self := by
        rw [childrenOf, childrenOf, hga, hsnd]
      rcases childrenOf_evolves_cases (unsubscribe_evolves env s.nodes.length
          { s with nodes := s.nodes ++ [⟨false, some a, none⟩] }) self with hc | hc
      · rw [hadd, hc, hca]
        exact hns
      · rw [hadd, hc]
        exact List.not_mem_nil self
  · by_cases hj : j = self
    · have hadd : (add env self (Teardown.tsub j) s).1 = s := by
        simp [add, hj]
      rw [hadd]
      exact hns
    · by_cases hj0 : j = emptyId
      · have hadd : (add env self (Teardown.tsub j) s).1 = s := by
          simp [add, hj, hj0]
        rw [hadd]
        exact hns
      · rcases hgj : getNode s j with _ | jnd
        · have hadd : (add env self (Teardown.tsub j) s).1 = s := by
            simp [add, hj, hj0, hgj]
          rw [hadd]
          exact hns
        · rcases hjd : jnd.isUnsubscribed with _ | _
          · rcases hsu : selfUnsub s self with _ | _
            · have hadd : (add env self (Teardown.tsub j) s).1
                  = setNode s self
                      ⟨snd.isUnsubscribed, snd.action, some (snd.subs.getD [] ++ [j])⟩ := by
                simp [add, hj, hj0, hgj, hjd, hsu, pushChild, hsnd]
              rw [hadd, childrenOf, getNode_setNode_self hsnd]
              intro hmem
              rcases List.mem_append.mp hmem with hm | hm
              · exact hnsl hm
              · rw [List.mem_singleton] at hm
                exact hj hm.symm
            · have hadd : (add env self (Teardown.tsub j) s).1 = (unsubscribe env j s).1 := by
                simp [add, hj, hj0, hgj, hjd, hsu]
              rcases childrenOf_evolves_cases (unsubscribe_evolves env j s) self with hc | hc
              · rw [hadd, hc]
                exact hns
              · rw [hadd, hc]
                exact List.not_mem_nil self
          · have hadd : (add env self (Teardown.tsub j) s).1 = s := by
              simp [add, hj, hj0, hgj, hjd]
            rw [hadd]
            exact hns
  · exact hns
  · exact hns

/-- C9 witness: concrete instance — self-add is a strict no-op, a push of an
ordinary child never introduces a self-loop, and fuel 2 already computes the
disposal of the one-active-node store. -/
theorem claim_C9_witness :
    add envNone 1 (Teardown.tsub 1) storeC8 = (storeC8, .ok)
    ∧ 1 ∉ childrenOf (add envNone 1 (Teardown.tsub 2) storeC8).1 1
    ∧ unsubFuel envNone 7 1 storeC8 = unsubscribe envNone 1 storeC8 :=
  ⟨(claim_C9_cycle envNone 1 7 storeC8 (Teardown.tsub 2) (by decide)).1,
   (claim_C9_cycle envNone 1 7 storeC8 (Teardown.tsub 2) (by decide)).2.1 (by decide),
   (claim_C9_cycle envNone 1 7 storeC8 (Teardown.tsub 2) (by decide)).2.2 (by decide)⟩

/-- C10: wrapper opacity.  On an active registry, add with a callable stores
a freshly allocated wrapper subscription (at the end of the heap) and never
the callable itself; two adds of the same callable give two distinct
children (fresh ids length and length+1, both appended to the child list);
and remove with any argument other than the first wrapper's id — an id the
caller never receives, and in particular any previously existing object —
leaves that wrapper registered. -/
theorem claim_C10_wrapper (env : Nat → Option JsError) (self a k : Nat) (s : Store)
    (nd : Node)
    (hself : getNode s self = some nd) (hact : nd.isUnsubscribed = false)
    (hk : k ≠ s.nodes.length) :
    getNode (add env self (Teardown.tfunc a) ((add env self (Teardown.tfunc a) s).1)).1
        s.nodes.length = some ⟨false, some a, none⟩
    ∧ childrenOf (add env self (Teardown.tfunc a) ((add env self (Teardown.tfunc a) s).1)).1
        self = nd.subs.getD [] ++ [s.nodes.length, s.nodes.length + 1]
    ∧ s.nodes.length ∈ childrenOf (remove self (some k)
        (add env self (Teardown.tfunc a) ((add env self (Teardown.tfunc a) s).1)).1) self := by
  have hv : self < s.nodes.length := get?_some_lt hself
  have hvne : self ≠ s.nodes.length := Nat.ne_of_lt hv
  have hsu : selfUnsub s self = false := (selfUnsub_of hself).trans hact
  have hga1 : getNode { s with nodes := s.nodes ++ [⟨false, some a, none⟩] } self
      = some nd := by
    rw [getNode]
    show (s.nodes ++ _).get? self = _
    rw [List.get?_append hv]
    exact hself
  have hadd1 : (add env self (Teardown.tfunc a) s).1
      = setNode { s with nodes := s.nodes ++ [⟨false, some a, none⟩] } self
          ⟨nd.isUnsubscribed, nd.action, some (nd.subs.getD [] ++ [s.nodes.length])⟩ := by
    simp [add, hsu, pushChild, hga1]
  set s1 := setNode { s with nodes := s.nodes ++ [⟨false, some a, none⟩] } self
    ⟨nd.isUnsubscribed, nd.action, some (nd.subs.getD [] ++ [s.nodes.length])⟩ with hs1
  have hs1self : getNode s1 self
      = some ⟨nd.isUnsubscribed, nd.action, some (nd.subs.getD [] ++ [s.nodes.length])⟩ := by
    rw [hs1]
    exact getNode_setNode_self hga1 _
  have hs1w1 : getNode s1 s.nodes.length = some ⟨false, some a, none⟩ := by
    rw [hs1, getNode_setNode_ne hvne, getNode]
    exact List.get?_concat_length _ _
  have hs1len : s1.nodes.length = s.nodes.length + 1 := by
    rw [hs1, setNode]
    show ((s.nodes ++ _).set self _).length = _
    rw [List.length_set, List.length_append]
    rfl
  have hsu1 : selfUnsub s1 self = false := (selfUnsub_of hs1self).trans hact
  have hv1 : self < s1.nodes.length := by
    rw [hs1len]
    exact Nat.lt_succ_of_lt hv
  have hga2 : getNode { s1 with nodes := s1.nodes ++ [⟨false, some a, none⟩] } self
      = some ⟨nd.isUnsubscribed, nd.action, some (nd.subs.getD [] ++ [s.nodes.length])⟩ := by
    rw [getNode]
    show (s1.nodes ++ _).get? self = _
    rw [List.get?_append hv1]
    exact hs1self
  have hadd2 : (add env self (Teardown.tfunc a) s1).1
      = setNode { s1 with nodes := s1.nodes ++ [⟨false, some a, none⟩] } self
          ⟨nd.isUnsubscribed, nd.action,
            some ((nd.subs.getD [] ++ [s.nodes.length]) ++ [s1.nodes.length])⟩ := by
    simp [add, hsu1, pushChild, hga2]
  set s2 := setNode { s1 with nodes := s1.nodes ++ [⟨false, some a, none⟩] } self
    ⟨nd.isUnsubscribed, nd.action,
      some ((nd.subs.getD [] ++ [s.nodes.length]) ++ [s1.nodes.length])⟩ with hs2
  have hs2self : getNode s2 self
      = some ⟨nd.isUnsubscribed, nd.action,
          some ((nd.subs.getD [] ++ [s.nodes.length]) ++ [s1.nodes.length])⟩ := by
    rw [hs2]
    exact getNode_setNode_self hga2 _
  have hs2w1 : getNode s2 s.nodes.length = some ⟨false, some a, none⟩ := by
    rw [hs2, getNode_setNode_ne hvne, getNode]
    show (s1.nodes ++ _).get? s.nodes.length = _
    rw [List.get?_append (by rw [hs1len]; exact Nat.lt_succ_self _)]
    exact hs1w1
  have hlist : (nd.subs.getD [] ++ [s.nodes.length]) ++ [s1.nodes.length]
      = nd.subs.getD [] ++ [s.nodes.length, s.nodes.length + 1] := by
    rw [hs1len, List.append_assoc]
    rfl
  have hchild : childrenOf s2 self
      = nd.subs.getD [] ++ [s.nodes.length, s.nodes.length + 1] := by
    rw [childrenOf, hs2self]
    show (nd.subs.getD [] ++ [s.nodes.length]) ++ [s1.nodes.length] = _
    exact hlist
  have hw1mem : s.nodes.length ∈ childrenOf s2 self := by
    rw [hchild]
    simp
  refine ⟨?_, ?_, ?_⟩
  · rw [hadd1, hadd2]
    exact hs2w1
  · rw [hadd1, hadd2]
    exact hchild
  · rw [hadd1, hadd2]
    by_cases hks : k = self
    · have hrem : remove self (some k) s2 = s2 := by
        simp [remove, hks]
      rw [hrem]
      exact hw1mem
    · by_cases hk0 : k = emptyId
      · have hrem : remove self (some k) s2 = s2 := by
          simp [remove, hks, hk0]
        rw [hrem]
        exact hw1mem
      · have hstep : remove self (some k) s2
            = if k ∈ (nd.subs.getD [] ++ [s.nodes.length]) ++ [s1.nodes.length]
              then setNode s2 self ⟨nd.isUnsubscribed, nd.action,
                  some (((nd.subs.getD [] ++ [s.nodes.length]) ++ [s1.nodes.length]).erase k)⟩
              else s2 := by
          simp [remove, hks, hk0, hs2self]
        by_cases hkl : k ∈ (nd.subs.getD [] ++ [s.nodes.length]) ++ [s1.nodes.length]
        · rw [hstep, if_pos hkl, childrenOf, getNode_setNode_self hs2self]
          show s.nodes.length ∈ ((nd.subs.getD [] ++ [s.nodes.length]) ++ [s1.nodes.length]).erase k
          rw [List.mem_erase_of_ne (fun hc => hk hc.symm)]
          rw [hlist]
          simp
        · rw [hstep, if_neg hkl]
          exact hw1mem

/-- A minimal active registry for the C10 witness. -/
def storeC10 : Store := ⟨[emptyNode, ⟨false, none, none⟩], []⟩

/-- C10 witness: two adds of the same callable on the concrete store create
the two distinct wrapper children 2 and 3, and removing id 5 (not the
wrapper) leaves wrapper 2 registered. -/
theorem claim_C10_witness :
    getNode (add envNone 1 (Teardown.tfunc 9)
        ((add envNone 1 (Teardown.tfunc 9) storeC10).1)).1 2 = some ⟨false, some 9, none⟩
    ∧ childrenOf (add envNone 1 (Teardown.tfunc 9)
        ((add envNone 1 (Teardown.tfunc 9) storeC10).1)).1 1 = [2, 3]
    ∧ 2 ∈ childrenOf (remove 1 (some 5) (add envNone 1 (Teardown.tfunc 9)
        ((add envNone 1 (Teardown.tfunc 9) storeC10).1)).1) 1 :=
  claim_C10_wrapper envNone 1 9 5 storeC10 ⟨false, none, none⟩ rfl rfl (by decide)

/-- C4 amended: add throws the Unrecognized-teardown usage error exactly for
truthy inputs that are neither objects nor callables; a falsy input and a
truthy object without a disposal operation are silently accepted as no-ops. -/
theorem claim_C4_amended (env : Nat → Option JsError) (self : Nat) (s : Store) :
    add env self Teardown.tother s = (s, .usageError)
    ∧ add env self Teardown.tobjNoUnsub s = (s, .ok)
    ∧ add env self Teardown.tnull s = (s, .ok) :=
  ⟨rfl, rfl, rfl⟩
